import Mathlib

/-!
Shallow embedding of the connection-string parsing demo (src/src/main.rs).

Rust strings are modelled as Lean String values; the character-level
operations of the source (split, trim, replace, u16 parsing) are modelled
as functions on List Char acting on String.data.  Whitespace trimming uses
Char.isWhitespace (space, tab, CR, LF), which agrees with Rust str::trim on
all inputs appearing here.  Fallible constructors return Except, mirroring
Result<T, ServerConfigConversionError>.
-/

/-- Model of Rust str::split(c): splits a character list at every occurrence
of the separator; always returns a non-empty list of segments. -/
def splitOnChar (c : Char) : List Char → List (List Char)
  | [] => [[]]
  | x :: xs =>
    if x = c then [] :: splitOnChar c xs
    else
      match splitOnChar c xs with
      | [] => [[x]]
      | y :: ys => (x :: y) :: ys

/-- Model of Rust str::trim: drop whitespace from both ends. -/
def rustTrim (l : List Char) : List Char :=
  ((l.dropWhile Char.isWhitespace).reverse.dropWhile Char.isWhitespace).reverse

/-- Model of Rust String::replace("//", ""): removes every non-overlapping
occurrence of two consecutive slashes, scanning left to right. -/
def stripSlashes : List Char → List Char
  | [] => []
  | [c] => [c]
  | c1 :: c2 :: rest =>
    if c1 = '/' ∧ c2 = '/' then stripSlashes rest
    else c1 :: stripSlashes (c2 :: rest)

/-- Model of Rust str::parse::<u16>: optional leading plus sign, then one or
more ASCII digits, value at most 65535; anything else fails (None). -/
def parseU16 (l : List Char) : Option Nat :=
  let digits :=
    match l with
    | '+' :: rest => rest
    | _ => l
  if digits = [] then none
  else if digits.all (fun c => c.isDigit) then
    let n := digits.foldl (fun acc c => acc * 10 + (c.toNat - 48)) 0
    if n ≤ 65535 then some n else none
  else none

/-- Closed enumeration of protocol kinds (ServerProtocolType in the source). -/
inductive ServerProtocolType where
  | Http
  | SecureHttp
  | WebSocket
  | SecureWebSocket
  | Tcp
  | Udp
  | MongoDB
deriving DecidableEq

/-- Error wrapper carrying a human-readable message
(ServerConfigConversionError in the source). -/
structure ServerConfigConversionError where
  error_message : String
deriving DecidableEq

/-- ConversionResult<T> = Result<T, ServerConfigConversionError>. -/
def ConversionResult (T : Type) : Type := Except ServerConfigConversionError T

/-- Character-level body of the tokenizer; parse_config_from_str applies it
to the data of the input string.  Splits the input on the colon, trims the
scheme, removes every "//" from the second segment and splits it on the
slash to obtain host and a path candidate, and, when the colon split gave
exactly three segments, reads port (and possibly an overriding path) from
the third segment.  Returns (scheme?, host?, port?, path?); never fails. -/
def parse_core (value_data : List Char) :
    Option String × Option String × Option Nat × Option String :=
  let temp_vec := splitOnChar ':' value_data
  if temp_vec.length < 2 then (none, none, none, none)
  else
    let protocol := rustTrim (temp_vec.getD 0 [])
    if protocol.length < 1 then (none, none, none, none)
    else
      let host_and_path := stripSlashes (temp_vec.getD 1 [])
      let host_path_vec := splitOnChar '/' host_and_path
      let host := rustTrim (host_path_vec.getD 0 [])
      if host.length < 1 ∨ '.' ∉ host then
        (some (String.mk protocol), none, none, none)
      else
        let path0 : Option String :=
          if host_path_vec.length = 2 then some (String.mk (host_path_vec.getD 1 []))
          else none
        if temp_vec.length = 3 then
          let port_and_path := splitOnChar '/' (rustTrim (temp_vec.getD 2 []))
          let port := parseU16 (rustTrim (port_and_path.getD 0 []))
          let path :=
            if port_and_path.length = 2 then some (String.mk (port_and_path.getD 1 []))
            else path0
          (some (String.mk protocol), some (String.mk host), port, path)
        else
          (some (String.mk protocol), some (String.mk host), none, path0)

/-- Tokenizer parse_config_from_str of the source: runs parse_core on the
characters of the input string. -/
def parse_config_from_str (value : String) :
    Option String × Option String × Option Nat × Option String :=
  parse_core value.data

def httpErrorMessage : String :=
  "Invalid input, valid http config string would look like this: http[s]://host_name[:port]"

def webSocketErrorMessage : String :=
  "Invalid input, valid web socket config string would look like this: ws[s]://host_name[:port][/path]"

def tcpErrorMessage : String :=
  "Invalid input, valid tcp config string would look like this: tcp://host_name:port"

def udpErrorMessage : String :=
  "Invalid input, valid udp config string would look like this: udp://host_name:port"

/-- HttpServerConfig record. -/
structure HttpServerConfig where
  protocol_type : ServerProtocolType
  host : String
  port : Nat
deriving DecidableEq

/-- FromStr for HttpServerConfig: scheme must be "http" or "https", host must
be present; port defaults to 443 for "https" and 80 for "http". -/
def HttpServerConfig.from_str (value : String) : ConversionResult HttpServerConfig :=
  match parse_config_from_str value with
  | (some protocol, some host, port, _) =>
    if protocol ≠ "http" ∧ protocol ≠ "https" then
      Except.error { error_message := httpErrorMessage }
    else
      Except.ok
        { protocol_type :=
            if protocol = "https" then ServerProtocolType.SecureHttp
            else ServerProtocolType.Http
          host := host
          port :=
            match port with
            | some inner_port => inner_port
            | none => if protocol = "https" then 443 else 80 }
  | _ => Except.error { error_message := httpErrorMessage }

/-- WebSocketServerConfig record. -/
structure WebSocketServerConfig where
  protocol_type : ServerProtocolType
  host : String
  port : Nat
  path : String
deriving DecidableEq

/-- FromStr for WebSocketServerConfig: scheme must be "ws" or "wss", host must
be present; port defaults to 443 for "wss" and 80 for "ws"; a missing path
becomes the empty string. -/
def WebSocketServerConfig.from_str (value : String) : ConversionResult WebSocketServerConfig :=
  match parse_config_from_str value with
  | (some protocol, some host, port, path) =>
    if protocol ≠ "ws" ∧ protocol ≠ "wss" then
      Except.error { error_message := webSocketErrorMessage }
    else
      Except.ok
        { protocol_type :=
            if protocol = "wss" then ServerProtocolType.SecureWebSocket
            else ServerProtocolType.WebSocket
          host := host
          port :=
            match port with
            | some inner_port => inner_port
            | none => if protocol = "wss" then 443 else 80
          path :=
            match path with
            | some inner_path => inner_path
            | none => "" }
  | _ => Except.error { error_message := webSocketErrorMessage }

/-- TcpServerConfig record. -/
structure TcpServerConfig where
  protocol_type : ServerProtocolType
  host : String
  port : Nat
deriving DecidableEq

/-- FromStr for TcpServerConfig: scheme must be "tcp"; host and port are both
mandatory, no default port. -/
def TcpServerConfig.from_str (value : String) : ConversionResult TcpServerConfig :=
  match parse_config_from_str value with
  | (some protocol, some host, some port, _) =>
    if protocol ≠ "tcp" then
      Except.error { error_message := tcpErrorMessage }
    else
      Except.ok
        { protocol_type := ServerProtocolType.Tcp
          host := host
          port := port }
  | _ => Except.error { error_message := tcpErrorMessage }

/-- UdpServerConfig record. -/
structure UdpServerConfig where
  protocol_type : ServerProtocolType
  host : String
  port : Nat
deriving DecidableEq

/-- FromStr for UdpServerConfig: scheme must be "udp"; host and port are both
mandatory, no default port. -/
def UdpServerConfig.from_str (value : String) : ConversionResult UdpServerConfig :=
  match parse_config_from_str value with
  | (some protocol, some host, some port, _) =>
    if protocol ≠ "udp" then
      Except.error { error_message := udpErrorMessage }
    else
      Except.ok
        { protocol_type := ServerProtocolType.Udp
          host := host
          port := port }
  | _ => Except.error { error_message := udpErrorMessage }

/-- impl From<HttpServerConfig> for UdpServerConfig. -/
def UdpServerConfig.fromHttpServerConfig (http_server_config : HttpServerConfig) : UdpServerConfig :=
  { protocol_type := ServerProtocolType.Udp
    host := http_server_config.host
    port := http_server_config.port }

/-- impl From<TcpServerConfig> for UdpServerConfig. -/
def UdpServerConfig.fromTcpServerConfig (tcp_server_config : TcpServerConfig) : UdpServerConfig :=
  { protocol_type := ServerProtocolType.Udp
    host := tcp_server_config.host
    port := tcp_server_config.port }

/-- Spec-worded variant of the host pipeline (step 3 of the spec): strip only
a leading "//" from the authority segment, leaving the rest unchanged.  Used
solely to compare the spec text with the source behaviour. -/
def stripLeadingSlashes : List Char → List Char
  | '/' :: '/' :: rest => rest
  | l => l

/-- Intermediate colon split of the tokenizer on a given input string. -/
def tvOf (value : String) : List (List Char) :=
  splitOnChar ':' value.data

/-- Intermediate slash split of the authority segment (after removing every
"//" occurrence) on a given input string. -/
def hpvOf (value : String) : List (List Char) :=
  splitOnChar '/' (stripSlashes ((tvOf value).getD 1 []))

/-- Host candidate of the tokenizer on a given input string. -/
def hostOf (value : String) : List Char :=
  rustTrim ((hpvOf value).getD 0 [])

/-- Intermediate slash split of the trimmed third colon segment on a given
input string. -/
def ppOf (value : String) : List (List Char) :=
  splitOnChar '/' (rustTrim ((tvOf value).getD 2 []))

theorem http_ok_of_tokens (value p h : String) (port : Option Nat) (path : Option String)
    (hp : parse_config_from_str value = (some p, some h, port, path))
    (hs : p = "http" ∨ p = "https") :
    HttpServerConfig.from_str value =
      Except.ok
        { protocol_type :=
            if p = "https" then ServerProtocolType.SecureHttp else ServerProtocolType.Http
          host := h
          port := port.getD (if p = "https" then 443 else 80) } := by
  unfold HttpServerConfig.from_str
  rw [hp]
  rcases hs with rfl | rfl <;> cases port <;> rfl

theorem tcp_err_of_no_port (value : String)
    (hp : (parse_config_from_str value).2.2.1 = none) :
    TcpServerConfig.from_str value = Except.error { error_message := tcpErrorMessage } := by
  unfold TcpServerConfig.from_str
  rcases hq : parse_config_from_str value with ⟨a, b, c, d⟩
  rw [hq] at hp
  have hc : c = none := hp
  subst hc
  cases a <;> cases b <;> rfl

theorem udp_err_of_no_port (value : String)
    (hp : (parse_config_from_str value).2.2.1 = none) :
    UdpServerConfig.from_str value = Except.error { error_message := udpErrorMessage } := by
  unfold UdpServerConfig.from_str
  rcases hq : parse_config_from_str value with ⟨a, b, c, d⟩
  rw [hq] at hp
  have hc : c = none := hp
  subst hc
  cases a <;> cases b <;> rfl

theorem tcp_ok_of_tokens (value h : String) (port : Nat) (path : Option String)
    (hp : parse_config_from_str value = (some "tcp", some h, some port, path)) :
    TcpServerConfig.from_str value =
      Except.ok ⟨ServerProtocolType.Tcp, h, port⟩ := by
  unfold TcpServerConfig.from_str
  rw [hp]
  rfl

theorem udp_ok_of_tokens (value h : String) (port : Nat) (path : Option String)
    (hp : parse_config_from_str value = (some "udp", some h, some port, path)) :
    UdpServerConfig.from_str value =
      Except.ok ⟨ServerProtocolType.Udp, h, port⟩ := by
  unfold UdpServerConfig.from_str
  rw [hp]
  rfl

theorem ws_path_of_ok (value : String) (cfg : WebSocketServerConfig)
    (hok : WebSocketServerConfig.from_str value = Except.ok cfg) :
    cfg.path = ((parse_config_from_str value).2.2.2).getD "" := by
  unfold WebSocketServerConfig.from_str at hok
  split at hok
  · rename_i protocol host port path heq
    split at hok
    · exact absurd hok (by simp)
    · injection hok with hcfg
      subst hcfg
      rw [heq]
      cases path <;> rfl
  · exact absurd hok (by simp)

/-- C1: for every input in which the tokenizer finds scheme exactly "http" or
"https" and a host, HttpServerConfig.from_str returns Ok with that (trimmed)
host and with the supplied port when present, otherwise 443 for "https" and
80 for "http"; in particular the two scenario inputs from the spec yield
(SecureHttp, www.google.com, 443) and (Http, www.google.com, 8080). -/
theorem claim_C1 :
    (∀ (value p h : String) (port : Option Nat) (path : Option String),
        parse_config_from_str value = (some p, some h, port, path) →
        p = "http" ∨ p = "https" →
        HttpServerConfig.from_str value =
          Except.ok
            { protocol_type :=
                if p = "https" then ServerProtocolType.SecureHttp else ServerProtocolType.Http
              host := h
              port := port.getD (if p = "https" then 443 else 80) }) ∧
    HttpServerConfig.from_str "https://www.google.com" =
      Except.ok ⟨ServerProtocolType.SecureHttp, "www.google.com", 443⟩ ∧
    HttpServerConfig.from_str "http://  www.google.com : 8080" =
      Except.ok ⟨ServerProtocolType.Http, "www.google.com", 8080⟩ :=
  ⟨http_ok_of_tokens, rfl, rfl⟩

/-- Witness for C1: claim_C1 applied at the concrete input "http://a.b:90". -/
theorem claim_C1_witness :
    HttpServerConfig.from_str "http://a.b:90" =
      Except.ok { protocol_type := ServerProtocolType.Http, host := "a.b", port := 90 } :=
  claim_C1.1 "http://a.b:90" "http" "a.b" (some 90) none rfl (Or.inl rfl)

/-- C2: for the byte-stream and datagram builders host and port are both
mandatory: whenever the tokenizer leaves the port absent both builders
return an error, and whenever the tokenizer finds the matching scheme
literal, a host and a port, the builder returns Ok with exactly those host
and port; in particular tcp://www.google.com:9999 yields Ok(Tcp,
www.google.com, 9999) and tcp://www.google.com yields an error. -/
theorem claim_C2 :
    (∀ value : String, (parse_config_from_str value).2.2.1 = none →
        TcpServerConfig.from_str value = Except.error { error_message := tcpErrorMessage } ∧
        UdpServerConfig.from_str value = Except.error { error_message := udpErrorMessage }) ∧
    (∀ (value h : String) (port : Nat) (path : Option String),
        parse_config_from_str value = (some "tcp", some h, some port, path) →
        TcpServerConfig.from_str value = Except.ok ⟨ServerProtocolType.Tcp, h, port⟩) ∧
    (∀ (value h : String) (port : Nat) (path : Option String),
        parse_config_from_str value = (some "udp", some h, some port, path) →
        UdpServerConfig.from_str value = Except.ok ⟨ServerProtocolType.Udp, h, port⟩) ∧
    TcpServerConfig.from_str "tcp://www.google.com:9999" =
      Except.ok ⟨ServerProtocolType.Tcp, "www.google.com", 9999⟩ ∧
    TcpServerConfig.from_str "tcp://www.google.com" =
      Except.error { error_message := tcpErrorMessage } :=
  ⟨fun v hv => ⟨tcp_err_of_no_port v hv, udp_err_of_no_port v hv⟩,
   tcp_ok_of_tokens, udp_ok_of_tokens, rfl, rfl⟩

/-- Witness for C2: claim_C2 applied at the concrete input "tcp://a.b:7". -/
theorem claim_C2_witness :
    TcpServerConfig.from_str "tcp://a.b:7" =
      Except.ok ⟨ServerProtocolType.Tcp, "a.b", 7⟩ :=
  claim_C2.2.1 "tcp://a.b:7" "a.b" 7 none rfl

/-- C3: for every input accepted by WebSocketServerConfig.from_str the path
field of the result is the path candidate of the tokenizer when one was
produced and the empty string otherwise; in particular
ws://www.google.com/path-to-connect yields Ok(WebSocket, www.google.com,
80, path-to-connect). -/
theorem claim_C3 :
    (∀ (value : String) (cfg : WebSocketServerConfig),
        WebSocketServerConfig.from_str value = Except.ok cfg →
        cfg.path = ((parse_config_from_str value).2.2.2).getD "") ∧
    WebSocketServerConfig.from_str "ws://www.google.com/path-to-connect" =
      Except.ok ⟨ServerProtocolType.WebSocket, "www.google.com", 80, "path-to-connect"⟩ :=
  ⟨ws_path_of_ok, rfl⟩

/-- Witness for C3: claim_C3 applied at the concrete input "ws://a.b". -/
theorem claim_C3_witness :
    (WebSocketServerConfig.mk ServerProtocolType.WebSocket "a.b" 80 "").path =
      ((parse_config_from_str "ws://a.b").2.2.2).getD "" :=
  claim_C3.1 "ws://a.b" ⟨ServerProtocolType.WebSocket, "a.b", 80, ""⟩ rfl

/-- C4: the conversions From HttpServerConfig and From TcpServerConfig into
UdpServerConfig are total value transformations that copy host and port
exactly and retag protocol_type as Udp, regardless of the source tag;
in particular Tcp(test.com, 7890) converts to Udp(test.com, 7890). -/
theorem claim_C4 :
    (∀ c : HttpServerConfig,
        (UdpServerConfig.fromHttpServerConfig c).host = c.host ∧
        (UdpServerConfig.fromHttpServerConfig c).port = c.port ∧
        (UdpServerConfig.fromHttpServerConfig c).protocol_type = ServerProtocolType.Udp) ∧
    (∀ c : TcpServerConfig,
        (UdpServerConfig.fromTcpServerConfig c).host = c.host ∧
        (UdpServerConfig.fromTcpServerConfig c).port = c.port ∧
        (UdpServerConfig.fromTcpServerConfig c).protocol_type = ServerProtocolType.Udp) ∧
    UdpServerConfig.fromTcpServerConfig ⟨ServerProtocolType.Tcp, "test.com", 7890⟩ =
      ⟨ServerProtocolType.Udp, "test.com", 7890⟩ :=
  ⟨fun _ => ⟨rfl, rfl, rfl⟩, fun _ => ⟨rfl, rfl, rfl⟩, rfl⟩

theorem splitOnChar_eq_single (c : Char) (l : List Char) (h : c ∉ l) :
    splitOnChar c l = [l] := by
  induction l with
  | nil => rfl
  | cons x xs ih =>
    rw [List.mem_cons, not_or] at h
    obtain ⟨h1, h2⟩ := h
    have hx : ¬ (x = c) := fun e => h1 e.symm
    simp only [splitOnChar, if_neg hx, ih h2]

theorem splitOnChar_append (c : Char) (s rest : List Char) (h : c ∉ s) :
    splitOnChar c (s ++ c :: rest) = s :: splitOnChar c rest := by
  induction s with
  | nil => simp [splitOnChar]
  | cons x xs ih =>
    rw [List.mem_cons, not_or] at h
    obtain ⟨h1, h2⟩ := h
    have hx : ¬ (x = c) := fun e => h1 e.symm
    have ih2 := ih h2
    simp only [List.cons_append, splitOnChar, if_neg hx, List.append_eq, ih2]

theorem stripSlashes_slash_slash (l : List Char) :
    stripSlashes ('/' :: '/' :: l) = stripSlashes l := by
  simp [stripSlashes]

theorem parseU16_lt (l : List Char) (n : Nat) (h : parseU16 l = some n) :
    n < 65536 := by
  simp only [parseU16] at h
  split at h
  · exact absurd h (by simp)
  · split at h
    · split at h
      · rename_i hle
        injection h with he
        omega
      · exact absurd h (by simp)
    · exact absurd h (by simp)

/-- Complete characterisation of a successful tokenizer run: whenever
parse_config_from_str returns a scheme and a host, they are the trimmed
first colon segment and the trimmed first piece of the slash split of the
"//"-stripped second segment, the host passed the validity check, and port
and path are determined by the third colon segment exactly when the colon
split has exactly three segments. -/
theorem parse_tokens_spec (value : String) (p h : String)
    (port : Option Nat) (path : Option String)
    (hp : parse_config_from_str value = (some p, some h, port, path)) :
    p = String.mk (rustTrim ((tvOf value).getD 0 [])) ∧
    h = String.mk (hostOf value) ∧
    ¬((hostOf value).length < 1 ∨ '.' ∉ hostOf value) ∧
    ((tvOf value).length = 3 →
        port = parseU16 (rustTrim ((ppOf value).getD 0 [])) ∧
        path = if (ppOf value).length = 2 then some (String.mk ((ppOf value).getD 1 []))
               else if (hpvOf value).length = 2 then some (String.mk ((hpvOf value).getD 1 []))
               else none) ∧
    ((tvOf value).length ≠ 3 →
        port = none ∧
        path = if (hpvOf value).length = 2 then some (String.mk ((hpvOf value).getD 1 []))
               else none) := by
  simp only [tvOf, hpvOf, hostOf, ppOf]
  simp only [parse_config_from_str, parse_core] at hp
  split at hp
  · simp at hp
  · split at hp
    · simp at hp
    · split at hp
      · simp at hp
      · split at hp
        · rename_i hhost hlen3
          simp only [Prod.mk.injEq, Option.some.injEq] at hp
          obtain ⟨hp1, hp2, hp3, hp4⟩ := hp
          exact ⟨hp1.symm, hp2.symm, hhost,
            fun _ => ⟨hp3.symm, hp4.symm⟩, fun hne => absurd hlen3 hne⟩
        · rename_i hhost hlen3
          simp only [Prod.mk.injEq, Option.some.injEq] at hp
          obtain ⟨hp1, hp2, hp3, hp4⟩ := hp
          exact ⟨hp1.symm, hp2.symm, hhost,
            fun h3 => absurd h3 hlen3, fun _ => ⟨hp3.symm, hp4.symm⟩⟩

theorem http_inv (value : String) (cfg : HttpServerConfig)
    (hok : HttpServerConfig.from_str value = Except.ok cfg) :
    cfg.host ≠ "" ∧ '.' ∈ cfg.host.data ∧ cfg.port < 65536 := by
  unfold HttpServerConfig.from_str at hok
  split at hok
  · rename_i protocol host port path heq
    split at hok
    · exact absurd hok (by simp)
    · injection hok with hcfg
      subst hcfg
      obtain ⟨_, hp2, hhost, hport3, hportn⟩ := parse_tokens_spec value protocol host port path heq
      subst hp2
      push_neg at hhost
      obtain ⟨hlen, hdot⟩ := hhost
      refine ⟨?_, hdot, ?_⟩
      · intro he
        have h0 : hostOf value = [] := congrArg String.data he
        rw [h0] at hlen
        simp at hlen
      · cases port with
        | some ip =>
          show ip < 65536
          by_cases h3 : (tvOf value).length = 3
          · exact parseU16_lt _ ip ((hport3 h3).1).symm
          · exact absurd ((hportn h3).1) (by simp)
        | none =>
          show (if protocol = "https" then 443 else 80) < 65536
          split <;> omega
  · exact absurd hok (by simp)

theorem ws_inv (value : String) (cfg : WebSocketServerConfig)
    (hok : WebSocketServerConfig.from_str value = Except.ok cfg) :
    cfg.host ≠ "" ∧ '.' ∈ cfg.host.data ∧ cfg.port < 65536 := by
  unfold WebSocketServerConfig.from_str at hok
  split at hok
  · rename_i protocol host port path heq
    split at hok
    · exact absurd hok (by simp)
    · injection hok with hcfg
      subst hcfg
      obtain ⟨_, hp2, hhost, hport3, hportn⟩ := parse_tokens_spec value protocol host port path heq
      subst hp2
      push_neg at hhost
      obtain ⟨hlen, hdot⟩ := hhost
      refine ⟨?_, hdot, ?_⟩
      · intro he
        have h0 : hostOf value = [] := congrArg String.data he
        rw [h0] at hlen
        simp at hlen
      · cases port with
        | some ip =>
          show ip < 65536
          by_cases h3 : (tvOf value).length = 3
          · exact parseU16_lt _ ip ((hport3 h3).1).symm
          · exact absurd ((hportn h3).1) (by simp)
        | none =>
          show (if protocol = "wss" then 443 else 80) < 65536
          split <;> omega
  · exact absurd hok (by simp)

theorem tcp_inv (value : String) (cfg : TcpServerConfig)
    (hok : TcpServerConfig.from_str value = Except.ok cfg) :
    cfg.host ≠ "" ∧ '.' ∈ cfg.host.data ∧ cfg.port < 65536 := by
  unfold TcpServerConfig.from_str at hok
  split at hok
  · rename_i protocol host port path heq
    split at hok
    · exact absurd hok (by simp)
    · injection hok with hcfg
      subst hcfg
      obtain ⟨_, hp2, hhost, hport3, hportn⟩ :=
        parse_tokens_spec value protocol host (some port) path heq
      subst hp2
      push_neg at hhost
      obtain ⟨hlen, hdot⟩ := hhost
      refine ⟨?_, hdot, ?_⟩
      · intro he
        have h0 : hostOf value = [] := congrArg String.data he
        rw [h0] at hlen
        simp at hlen
      · show port < 65536
        by_cases h3 : (tvOf value).length = 3
        · exact parseU16_lt _ port ((hport3 h3).1).symm
        · exact absurd ((hportn h3).1) (by simp)
  · exact absurd hok (by simp)

theorem udp_inv (value : String) (cfg : UdpServerConfig)
    (hok : UdpServerConfig.from_str value = Except.ok cfg) :
    cfg.host ≠ "" ∧ '.' ∈ cfg.host.data ∧ cfg.port < 65536 := by
  unfold UdpServerConfig.from_str at hok
  split at hok
  · rename_i protocol host port path heq
    split at hok
    · exact absurd hok (by simp)
    · injection hok with hcfg
      subst hcfg
      obtain ⟨_, hp2, hhost, hport3, hportn⟩ :=
        parse_tokens_spec value protocol host (some port) path heq
      subst hp2
      push_neg at hhost
      obtain ⟨hlen, hdot⟩ := hhost
      refine ⟨?_, hdot, ?_⟩
      · intro he
        have h0 : hostOf value = [] := congrArg String.data he
        rw [h0] at hlen
        simp at hlen
      · show port < 65536
        by_cases h3 : (tvOf value).length = 3
        · exact parseU16_lt _ port ((hport3 h3).1).symm
        · exact absurd ((hportn h3).1) (by simp)
  · exact absurd hok (by simp)

/-- C5: every successfully built config record, of any of the four builder
types, has a non-empty host containing at least one dot, and a port value
below 2 to the 16, never absent. -/
theorem claim_C5 :
    (∀ (value : String) (cfg : HttpServerConfig),
        HttpServerConfig.from_str value = Except.ok cfg →
        cfg.host ≠ "" ∧ '.' ∈ cfg.host.data ∧ cfg.port < 65536) ∧
    (∀ (value : String) (cfg : WebSocketServerConfig),
        WebSocketServerConfig.from_str value = Except.ok cfg →
        cfg.host ≠ "" ∧ '.' ∈ cfg.host.data ∧ cfg.port < 65536) ∧
    (∀ (value : String) (cfg : TcpServerConfig),
        TcpServerConfig.from_str value = Except.ok cfg →
        cfg.host ≠ "" ∧ '.' ∈ cfg.host.data ∧ cfg.port < 65536) ∧
    (∀ (value : String) (cfg : UdpServerConfig),
        UdpServerConfig.from_str value = Except.ok cfg →
        cfg.host ≠ "" ∧ '.' ∈ cfg.host.data ∧ cfg.port < 65536) :=
  ⟨http_inv, ws_inv, tcp_inv, udp_inv⟩

/-- Witness for C5: claim_C5 applied to the record built from "http://a.b". -/
theorem claim_C5_witness :
    ("a.b" : String) ≠ "" ∧ '.' ∈ ("a.b" : String).data ∧ 80 < 65536 :=
  claim_C5.1 "http://a.b" ⟨ServerProtocolType.Http, "a.b", 80⟩ rfl

/-- C6 counterexample: on "http://a.b:80:90" the colon split has four
segments, so a third top-level segment exists and its first piece parses to
80, yet the tokenizer leaves the port absent (the source only reads the
third segment when the split has exactly three segments). -/
theorem claim_C6_counterexample :
    parse_config_from_str "http://a.b:80:90" = (some "http", some "a.b", none, none) ∧
    3 ≤ (tvOf "http://a.b:80:90").length ∧
    parseU16 (rustTrim ((ppOf "http://a.b:80:90").getD 0 [])) = some 80 :=
  ⟨rfl, by decide, rfl⟩

/-- C6 amended: only when splitting the whole input on the colon yields
exactly three segments is the third segment trimmed and split on the slash,
its first piece parsed as an unsigned 16-bit integer for the port candidate
(silently absent on failure), and, when that split yields exactly two
pieces, its second piece overrides the path candidate; with any other
number of segments the port is left absent. -/
theorem claim_C6_amended (value : String) (p h : String)
    (port : Option Nat) (path : Option String)
    (hp : parse_config_from_str value = (some p, some h, port, path)) :
    ((tvOf value).length = 3 →
        port = parseU16 (rustTrim ((ppOf value).getD 0 [])) ∧
        ((ppOf value).length = 2 →
            path = some (String.mk ((ppOf value).getD 1 [])))) ∧
    ((tvOf value).length ≠ 3 → port = none) := by
  obtain ⟨_, _, _, h3, hn3⟩ := parse_tokens_spec value p h port path hp
  refine ⟨fun hl => ?_, fun hl => (hn3 hl).1⟩
  obtain ⟨hport, hpath⟩ := h3 hl
  exact ⟨hport, fun h2 => by rw [hpath, if_pos h2]⟩

/-- Witness for C6: claim_C6_amended applied at "ws://a.b:80/xy". -/
theorem claim_C6_witness :
    (some 80 : Option Nat) = parseU16 (rustTrim ((ppOf "ws://a.b:80/xy").getD 0 [])) ∧
    (some "xy" : Option String) = some (String.mk ((ppOf "ws://a.b:80/xy").getD 1 [])) := by
  have h := claim_C6_amended "ws://a.b:80/xy" "ws" "a.b" (some 80) (some "xy") rfl
  exact ⟨(h.1 rfl).1, (h.1 rfl).2 rfl⟩

/-- C7 counterexample: on "http:a.b//c" the source removes every "//" from
the second colon segment, giving host "a.bc", whereas stripping only a
leading "//" would give host "a.b". -/
theorem claim_C7_counterexample :
    (parse_config_from_str "http:a.b//c").2.1 = some "a.bc" ∧
    String.mk (rustTrim ((splitOnChar '/'
        (stripLeadingSlashes ((tvOf "http:a.b//c").getD 1 []))).getD 0 [])) = "a.b" ∧
    ("a.bc" : String) ≠ "a.b" :=
  ⟨rfl, rfl, by decide⟩

/-- C7 amended: the second colon segment has every occurrence of "//"
removed (left to right, non-overlapping), not only a leading one, before
being split on the slash; the first resulting piece, trimmed, is the host
candidate. -/
theorem claim_C7_amended (value : String) (p h : String)
    (port : Option Nat) (path : Option String)
    (hp : parse_config_from_str value = (some p, some h, port, path)) :
    h = String.mk (rustTrim ((splitOnChar '/'
        (stripSlashes ((tvOf value).getD 1 []))).getD 0 [])) :=
  (parse_tokens_spec value p h port path hp).2.1

/-- Witness for C7: claim_C7_amended applied at "http://www.g.com/x". -/
theorem claim_C7_witness :
    ("www.g.com" : String) = String.mk (rustTrim ((splitOnChar '/'
        (stripSlashes ((tvOf "http://www.g.com/x").getD 1 []))).getD 0 [])) :=
  claim_C7_amended "http://www.g.com/x" "http" "www.g.com" none (some "x") rfl

/-- C8 counterexample: on "ws:a.b/c/d" the slash split of the authority
segment has three pieces, so a second piece ("c") exists, yet the tokenizer
produces no path candidate (the source only takes the path when the split
has exactly two pieces). -/
theorem claim_C8_counterexample :
    parse_config_from_str "ws:a.b/c/d" = (some "ws", some "a.b", none, none) ∧
    2 ≤ (hpvOf "ws:a.b/c/d").length ∧
    (hpvOf "ws:a.b/c/d").getD 1 [] = ("c" : String).data :=
  ⟨rfl, by decide, rfl⟩

/-- C8 amended: only when splitting the authority segment on the slash
yields exactly two pieces does the second piece become the path candidate
(verbatim); with three or more pieces no path candidate is taken from the
authority segment (stated for inputs whose colon split does not have
exactly three segments, where no port-segment override can occur). -/
theorem claim_C8_amended (value : String) (p h : String)
    (port : Option Nat) (path : Option String)
    (hp : parse_config_from_str value = (some p, some h, port, path))
    (hlen : (tvOf value).length ≠ 3) :
    ((hpvOf value).length = 2 → path = some (String.mk ((hpvOf value).getD 1 []))) ∧
    ((hpvOf value).length ≠ 2 → path = none) := by
  obtain ⟨_, _, _, _, hn3⟩ := parse_tokens_spec value p h port path hp
  obtain ⟨_, hpath⟩ := hn3 hlen
  exact ⟨fun h2 => by rw [hpath, if_pos h2], fun h2 => by rw [hpath, if_neg h2]⟩

/-- Witness for C8: claim_C8_amended applied at "ws:a.b/c". -/
theorem claim_C8_witness :
    (some "c" : Option String) = some (String.mk ((hpvOf "ws:a.b/c").getD 1 [])) :=
  (claim_C8_amended "ws:a.b/c" "ws" "a.b" none (some "c") rfl (by decide)).1 rfl

/-- C9: the tokenizer never fails; it returns all-absent when the input has
no colon separator or when the trimmed scheme segment is empty, and returns
(scheme, absent, absent, absent) when the scheme is found but the host
candidate is empty or lacks a dot.  (Totality itself holds by construction:
parse_config_from_str is a total function of the input string.) -/
theorem claim_C9 :
    (∀ value : String, ':' ∉ value.data →
        parse_config_from_str value = (none, none, none, none)) ∧
    (∀ value : String, rustTrim ((tvOf value).getD 0 []) = [] →
        parse_config_from_str value = (none, none, none, none)) ∧
    (∀ value : String, 2 ≤ (tvOf value).length →
        rustTrim ((tvOf value).getD 0 []) ≠ [] →
        (hostOf value = [] ∨ '.' ∉ hostOf value) →
        parse_config_from_str value =
          (some (String.mk (rustTrim ((tvOf value).getD 0 []))), none, none, none)) := by
  refine ⟨?_, ?_, ?_⟩
  · intro value hmem
    have he : splitOnChar ':' value.data = [value.data] :=
      splitOnChar_eq_single ':' value.data hmem
    simp only [parse_config_from_str, parse_core, he]
    rfl
  · intro value hps
    simp only [tvOf] at hps
    simp only [parse_config_from_str, parse_core]
    split
    · rfl
    · rw [hps]
      rfl
  · intro value hlen hprot hhost
    simp only [tvOf] at hlen hprot ⊢
    simp only [hostOf, hpvOf, tvOf] at hhost
    simp only [parse_config_from_str, parse_core]
    rw [if_neg (by omega), if_neg (Nat.not_lt.mpr (List.length_pos.mpr hprot)),
      if_pos (hhost.imp (fun e => by rw [e]; decide) id)]

/-- Witness for C9: claim_C9 applied at the dotless-host input
"http:nodothost". -/
theorem claim_C9_witness :
    parse_config_from_str "http:nodothost" = (some "http", none, none, none) :=
  claim_C9.2.2 "http:nodothost" (by decide) (by decide) (Or.inr (by decide))

/-- C10: the "//" authority marker is not required: for every input of the
form scheme:host, with a dotted non-empty host containing no slashes, the
tokenizer produces the same tuple as for the corresponding scheme://host
input; in particular "http:www.google.com" is accepted by
HttpServerConfig.from_str with host www.google.com and port 80. -/
theorem claim_C10 :
    (∀ s h : List Char, ':' ∉ s → ':' ∉ h → '/' ∉ h →
        rustTrim h ≠ [] → '.' ∈ rustTrim h →
        parse_config_from_str (String.mk (s ++ ':' :: h)) =
          parse_config_from_str (String.mk (s ++ ':' :: '/' :: '/' :: h))) ∧
    HttpServerConfig.from_str "http:www.google.com" =
      Except.ok ⟨ServerProtocolType.Http, "www.google.com", 80⟩ := by
  constructor
  · intro s h hs hh hsl htne htdot
    show parse_core (s ++ ':' :: h) = parse_core (s ++ ':' :: '/' :: '/' :: h)
    have e1 : splitOnChar ':' (s ++ ':' :: h) = [s, h] := by
      rw [splitOnChar_append ':' s h hs, splitOnChar_eq_single ':' h hh]
    have e2 : splitOnChar ':' (s ++ ':' :: '/' :: '/' :: h) = [s, '/' :: '/' :: h] := by
      have hh2 : ':' ∉ '/' :: '/' :: h := by
        simp [List.mem_cons, hh]
      rw [splitOnChar_append ':' s ('/' :: '/' :: h) hs,
        splitOnChar_eq_single ':' _ hh2]
    simp only [parse_core, e1, e2, List.getD_cons_zero, List.getD_cons_succ,
      stripSlashes_slash_slash, List.length_cons, List.length_nil]
  · rfl

/-- Witness for C10: claim_C10 applied at scheme "http" and host
"www.google.com". -/
theorem claim_C10_witness :
    parse_config_from_str (String.mk (("http" : String).data ++ ':' :: ("www.google.com" : String).data)) =
      parse_config_from_str
        (String.mk (("http" : String).data ++ ':' :: '/' :: '/' :: ("www.google.com" : String).data)) :=
  claim_C10.1 ("http" : String).data ("www.google.com" : String).data
    (by decide) (by decide) (by decide) (by decide) (by decide)

